import Mathlib

/-!
Verification of the Server Registry & Process Lifecycle Manager
(`src/minecraftManager.js`) against its natural-language specification.

The JavaScript source is shallowly embedded: JS strings become `String`,
JS numbers that the code treats as integers become `Int`, `null`/`undefined`
become `Option`, thrown `Error` values become `Except String`, the registry
directory tree becomes a map from path strings to filesystem nodes, and the
in-memory running-process table becomes a map from names to tracking entries.
Network calls and the child-process handle are abstracted by explicit
environment records whose outcomes are parameters of the embedded functions.
-/

set_option maxRecDepth 4000

deriving instance DecidableEq for Except

/-! ## JavaScript string primitives

The JS code uses `trim`, `split`, `replaceAll`, `indexOf`, `slice`,
`toLowerCase` and `parseInt`.  They are embedded as structurally recursive
functions over `List Char` so that every definition evaluates inside the
kernel. -/

/-- Whitespace recognised by `String.prototype.trim` (common ASCII cases). -/
def isJsSpace (c : Char) : Bool :=
  c == ' ' || c == '\t' || c == '\n' || c == '\r' || c == '\x0b' || c == '\x0c'

/-- `s.trim()`. -/
def jsTrim (s : String) : String :=
  (((s.toList.dropWhile isJsSpace).reverse.dropWhile isJsSpace).reverse).asString

/-- Split a character list at every occurrence of `sep`, keeping empty pieces,
as `String.prototype.split` does with a single-character separator. -/
def splitChars (sep : Char) : List Char → List (List Char)
  | [] => [[]]
  | c :: rest =>
    if c = sep then [] :: splitChars sep rest
    else
      match splitChars sep rest with
      | [] => [[c]]
      | h :: t => (c :: h) :: t

/-- `s.split(sep)` for a one-character separator. -/
def jsSplit (s : String) (sep : Char) : List String :=
  (splitChars sep s.toList).map List.asString

/-- `s.replaceAll(a, r)` for a one-character pattern `a`. -/
def replace1 (a : Char) (r : List Char) : List Char → List Char
  | [] => []
  | c :: rest => (if c = a then r else [c]) ++ replace1 a r rest

/-- `s.replaceAll(ab, r)` for a two-character pattern `a`,`b`
(leftmost, non-overlapping, as in JS). -/
def replace2 (a b : Char) (r : List Char) : List Char → List Char
  | [] => []
  | [c] => [c]
  | c1 :: c2 :: rest =>
    if c1 = a ∧ c2 = b then r ++ replace2 a b r rest
    else c1 :: replace2 a b r (c2 :: rest)

/-- String-level wrapper for `replace1`. -/
def jsReplace1 (s : String) (a : Char) (r : List Char) : String :=
  (replace1 a r s.toList).asString

/-- String-level wrapper for `replace2`. -/
def jsReplace2 (s : String) (a b : Char) (r : List Char) : String :=
  (replace2 a b r s.toList).asString

/-- `pre` is a leading substring of `s` (JS `s.startsWith(pre)`). -/
def jsStartsWith (s pre : String) : Bool :=
  pre.toList.isPrefixOf s.toList

/-- `s.toLowerCase()` (ASCII). -/
def jsToLower (s : String) : String :=
  (s.toList.map Char.toLower).asString

/-- Leading decimal digits of a character list, as a number. -/
def jsLeadingDigits (cs : List Char) : Option Nat :=
  let ds := cs.takeWhile Char.isDigit
  if ds.isEmpty then none
  else some (ds.foldl (fun a c => a * 10 + (c.toNat - 48)) 0)

/-- `Number.parseInt(s, 10)`: skip leading whitespace, optional sign, read the
leading digit run; `none` models `NaN`. -/
def jsParseInt10 (s : String) : Option Int :=
  let cs := s.toList.dropWhile isJsSpace
  match cs with
  | '-' :: rest => (jsLeadingDigits rest).map (fun n => -(n : Int))
  | '+' :: rest => (jsLeadingDigits rest).map (fun n => (n : Int))
  | _ => (jsLeadingDigits cs).map (fun n => (n : Int))

/-- JS `x || d` for a possibly-absent string (absent and `""` are falsy). -/
def jsOrStr : Option String → String → String
  | some s, d => if s = "" then d else s
  | none, d => d

/-- JS `x || d` for a possibly-absent number (absent and `0` are falsy). -/
def jsOrInt : Option Int → Int → Int
  | some n, d => if n = 0 then d else n
  | none, d => d

/-- JS `n || d` for a number that is present (`0` is falsy). -/
def jsOrIntV (n d : Int) : Int :=
  if n = 0 then d else n

/-- `arr.slice(-n)` for `n ≥ 1`: the most recent `n` entries (fewer if the
list is shorter). -/
def jsSliceLast (l : List String) (n : Nat) : List String :=
  l.drop (l.length - n)

/-! ## Path helpers (`node:path`, POSIX flavour) -/

/-- `path.join(a, b)`. -/
def joinPath (a b : String) : String := a ++ "/" ++ b

/-- `path.isAbsolute(p)`. -/
def isAbsolutePath (p : String) : Bool := jsStartsWith p "/"

/-- Normalisation of path segments: drop empty and `.` segments, let `..`
remove the previous segment. -/
def normSegs (segs : List String) : List String :=
  segs.foldl (fun acc s =>
    if s = "" || s = "." then acc
    else if s = ".." then acc.dropLast
    else acc ++ [s]) []

/-- Normalise an absolute path. -/
def normPath (p : String) : String :=
  "/" ++ String.intercalate "/" (normSegs (jsSplit p '/'))

/-- The (fixed) working directory used to model `path.resolve` on relative
inputs. -/
def modelCwd : String := "/cwd"

/-- `path.resolve(p)`. -/
def jsResolve1 (p : String) : String :=
  if isAbsolutePath p then normPath p else normPath (modelCwd ++ "/" ++ p)

/-- `path.resolve(base, p)`. -/
def jsResolve2 (base p : String) : String :=
  if isAbsolutePath p then normPath p
  else if isAbsolutePath base then normPath (base ++ "/" ++ p)
  else normPath (modelCwd ++ "/" ++ base ++ "/" ++ p)

/-! ## Validation helpers (`minecraftManager.js` lines 18–43) -/

/-- Characters allowed by the server-name pattern `[a-zA-Z0-9_-]`. -/
def isNameChar (c : Char) : Bool := c.isAlphanum || c == '_' || c == '-'

/-- `sanitizeServerName` (lines 18–26): trim, then require the pattern
`^[a-zA-Z0-9_-]{3,32}$`. -/
def sanitizeServerName (name : String) : Except String String :=
  let normalized := jsTrim name
  if 3 ≤ normalized.length ∧ normalized.length ≤ 32 ∧
      normalized.toList.all isNameChar then
    .ok normalized
  else
    .error "Server name must be 3-32 chars and use only letters, numbers, _ or -."

/-- `parseIntegerRange` (lines 28–33).  The value is an `Int`, so the JS
`Number.isInteger` test is carried by the type; the range test is explicit. -/
def parseIntegerRange (value : Int) (name : String) (lo hi : Int) :
    Except String Int :=
  if value < lo ∨ value > hi then
    .error (name ++ " must be an integer between " ++ toString lo ++ " and " ++
      toString hi ++ ".")
  else
    .ok value

def CREATE_SUPPORTED_FORKS : List String := ["vanilla", "paper", "purpur"]

def IMPORT_SUPPORTED_FORKS : List String := ["vanilla", "paper", "purpur", "custom"]

/-- `normalizeFork` (lines 35–43). -/
def normalizeFork (forkInput : String) (supportedForks : List String) :
    Except String String :=
  let fork := jsToLower (jsTrim (if forkInput = "" then "vanilla" else forkInput))
  if supportedForks.contains fork then
    .ok fork
  else
    .error ("Unsupported fork \"" ++ forkInput ++ "\". Supported: " ++
      String.intercalate ", " supportedForks)

/-! ## Version comparator (`minecraftManager.js` lines 124–144) -/

/-- `parseMcVersion` (lines 124–129): split on `.`, `parseInt` each segment,
keep the finite ones. -/
def parseMcVersion (version : String) : List Int :=
  (jsSplit version '.').filterMap jsParseInt10

/-- The comparison loop of `compareMcVersion` when the left side is
exhausted: every left segment reads as `0`. -/
def cmpSegsNil : List Int → Int
  | [] => 0
  | r :: rs => if 0 ≠ r then 0 - r else cmpSegsNil rs

/-- The comparison loop of `compareMcVersion` (lines 136–143): a missing
segment counts as `0`; the first differing pair decides. -/
def cmpSegsAux : List Int → List Int → Int
  | [], rs => cmpSegsNil rs
  | l :: ls, [] => if l ≠ 0 then l - 0 else cmpSegsAux ls []
  | l :: ls, r :: rs => if l ≠ r then l - r else cmpSegsAux ls rs

/-- `compareMcVersion` (lines 131–144). -/
def compareMcVersion (a b : String) : Int :=
  cmpSegsAux (parseMcVersion a) (parseMcVersion b)

/-- Modelled from the spec: "compares segment-by-segment left to right,
returns the first non-zero pairwise difference or zero if all compared
segments are equal", a missing segment counting as `0`.  Stated as a
separate function so the source loop can be proved equal to it. -/
def firstNonzeroDiff (left right : List Int) : Int :=
  ((((List.range (max left.length right.length)).map
      (fun i => left.getD i 0 - right.getD i 0)).find?
      (fun d => d != 0)).getD 0)

/-! ## Server properties (`minecraftManager.js` lines 45–104, 153–186) -/

/-- `unescapePropertyValue` (lines 99–104): undo the escapes for `:` and `=`;
the `\n` escape becomes a space (the generator normalises newlines to spaces
before escaping, so a space is its pre-image). -/
def unescapePropertyValue (value : String) : String :=
  jsReplace2 (jsReplace2 (jsReplace2 value '\\' ':' [':']) '\\' '=' ['=']) '\\' 'n' [' ']

/-- The escaped motd computed at the top of `buildServerProperties`
(lines 46–50). -/
def escapeMotd (motd : String) : String :=
  jsReplace1 (jsReplace1 (jsReplace1 (jsReplace1
    (if motd = "" then "Minecraft Server" else motd)
    '\n' [' ']) '\r' [' ']) ':' ['\\', ':']) '=' ['\\', '=']

/-- `buildServerProperties` (lines 45–97): the generated
`server.properties` body embedding the validated port and escaped motd. -/
def buildServerProperties (port : Int) (motd : String) : String :=
  String.intercalate "\n" [
    "accepts-transfers=false",
    "allow-flight=false",
    "allow-nether=true",
    "broadcast-console-to-ops=true",
    "difficulty=normal",
    "enable-command-block=false",
    "enable-jmx-monitoring=false",
    "enable-query=false",
    "enable-rcon=false",
    "enforce-secure-profile=true",
    "enforce-whitelist=false",
    "entity-broadcast-range-percentage=100",
    "force-gamemode=false",
    "function-permission-level=2",
    "gamemode=survival",
    "generate-structures=true",
    "hardcore=false",
    "hide-online-players=false",
    "max-players=20",
    "max-tick-time=60000",
    "max-world-size=29999984",
    "motd=" ++ escapeMotd motd,
    "network-compression-threshold=256",
    "online-mode=true",
    "op-permission-level=4",
    "player-idle-timeout=0",
    "prevent-proxy-connections=false",
    "pvp=true",
    "rate-limit=0",
    "resource-pack-prompt=",
    "resource-pack-sha1=",
    "server-ip=",
    "server-port=" ++ toString port,
    "simulation-distance=10",
    "spawn-animals=true",
    "spawn-monsters=true",
    "spawn-npcs=true",
    "spawn-protection=16",
    "sync-chunk-writes=true",
    "text-filtering-config=",
    "use-native-transport=true",
    "view-distance=10",
    "white-list=false"]

/-- The operational fields `readServerProperties` extracts. -/
structure ServerProps where
  port : Option Int := none
  motd : Option String := none
deriving DecidableEq

/-- One iteration of the line loop in `readServerProperties`
(lines 161–183). -/
def propsLineApply (result : ServerProps) (rawLine : String) : ServerProps :=
  let line := jsTrim rawLine
  if line = "" || jsStartsWith line "#" || jsStartsWith line "!" then result
  else
    match line.toList.findIdx? (fun c => c == '=') with
    | none => result
    | some 0 => result
    | some delimiterIndex =>
      let key := jsTrim (line.toList.take delimiterIndex).asString
      let value := jsTrim (line.toList.drop (delimiterIndex + 1)).asString
      let result :=
        if key = "server-port" then
          match jsParseInt10 value with
          | some parsedPort => { result with port := some parsedPort }
          | none => result
        else result
      if key = "motd" then { result with motd := some (unescapePropertyValue value) }
      else result

/-- The parsing core of `readServerProperties` (lines 159–185): split the
file on `\r?\n` and fold the line loop. -/
def readServerPropertiesContent (content : String) : ServerProps :=
  (jsSplit (jsReplace2 content '\r' '\n' ['\n']) '\n').foldl propsLineApply {}

/-! ## Data model: configs and the registry filesystem -/

/-- The shape of a stored `bot-config.json` record as `JSON.parse` hands it
back: every field may be absent (or `null`, for `build`/`createdAt`). -/
structure RawConfig where
  name : Option String := none
  source : Option String := none
  serverPath : Option String := none
  jarFile : Option String := none
  fork : Option String := none
  version : Option String := none
  build : Option String := none
  port : Option Int := none
  memoryMb : Option Int := none
  motd : Option String := none
  createdAt : Option String := none
deriving DecidableEq

/-- The completed installation record produced by `readServerConfig` and
`resolveManagedServer`. -/
structure Config where
  name : String
  source : String
  serverPath : String
  jarFile : String
  fork : String
  version : String
  build : Option String
  port : Int
  memoryMb : Int
  motd : String
  createdAt : Option String
deriving DecidableEq

/-- A node of the modelled filesystem: a directory, a plain file, or the
JSON config record (serialisation is modelled by storing the record). -/
inductive FsNode where
  | dir
  | textFile (content : String)
  | configFile (c : RawConfig)
deriving DecidableEq

/-- The filesystem: full path strings to nodes; `none` means absent. -/
abbrev FS := String → Option FsNode

/-- Write one path. -/
def fsSet (fs : FS) (p : String) (node : FsNode) : FS :=
  fun q => if q = p then some node else fs q

/-- `exists` (lines 106–113): `fs.access` succeeds on any node. -/
def pathExists (fs : FS) (p : String) : Bool := (fs p).isSome

/-- `q` is `root` itself or lies strictly inside it. -/
def isUnder (root q : String) : Bool :=
  q == root || jsStartsWith q (root ++ "/")

/-- `fs.rm(root, { recursive: true, force: true })`. -/
def fsRemoveTree (fs : FS) (root : String) : FS :=
  fun q => if isUnder root q then none else fs q

/-- Serialisation used by `createServer`: `JSON.stringify` of a complete
config round-trips every field, `null` mapping to an absent/`none` field. -/
def configToRaw (c : Config) : RawConfig where
  name := some c.name
  source := some c.source
  serverPath := some c.serverPath
  jarFile := some c.jarFile
  fork := some c.fork
  version := some c.version
  build := c.build
  port := some c.port
  memoryMb := some c.memoryMb
  motd := some c.motd
  createdAt := c.createdAt

/-! ## Config store (`minecraftManager.js` lines 533–615) -/

/-- `readServerConfig` (lines 533–564): `none` when no record file exists;
otherwise resolve `serverPath` and backfill absent fields.  A node at the
record path that is not a parsed config record models an unreadable or
malformed JSON file, whose exception propagates. -/
def readServerConfig (baseDir : String) (fs : FS) (serverName : String) :
    Except String (Option Config) :=
  match sanitizeServerName serverName with
  | .error e => .error e
  | .ok sanitized =>
  let serverConfigDir := joinPath baseDir sanitized
  match fs (joinPath serverConfigDir "bot-config.json") with
  | none => Except.ok none
  | some (FsNode.configFile parsed) =>
    let spRaw := parsed.serverPath.getD ""
    let serverPath :=
      if isAbsolutePath spRaw then spRaw
      else jsResolve2 serverConfigDir (if spRaw = "" then "." else spRaw)
    Except.ok (some {
      name := sanitized
      source := jsOrStr parsed.source
        (if jsResolve1 serverPath = jsResolve1 serverConfigDir then "created"
         else "imported")
      fork := jsOrStr parsed.fork "vanilla"
      version := jsOrStr parsed.version "unknown"
      build := parsed.build
      memoryMb := jsOrInt parsed.memoryMb 2048
      port := jsOrInt parsed.port 25565
      motd := jsOrStr parsed.motd sanitized
      serverPath := serverPath
      jarFile := jsOrStr parsed.jarFile "server.jar"
      createdAt := parsed.createdAt })
  | some _ => .error "bot-config.json could not be read as a JSON record."

/-- `writeServerConfig` (lines 566–575): create the registry directory when
absent, then (over)write the record file. -/
def writeServerConfig (baseDir : String) (fs : FS) (serverName : String)
    (config : RawConfig) : Except String FS :=
  match sanitizeServerName serverName with
  | .error e => .error e
  | .ok sanitized =>
  let serverConfigDir := joinPath baseDir sanitized
  let fs := if fs serverConfigDir = none then fsSet fs serverConfigDir .dir else fs
  Except.ok (fsSet fs (joinPath serverConfigDir "bot-config.json")
    (.configFile config))

/-- Result of `resolveManagedServer`. -/
structure ManagedServer where
  name : String
  serverConfigDir : String
  config : Config
  jarExists : Bool
deriving DecidableEq

/-- `readServerProperties` (lines 153–186) applied to a directory: `{}` when
the file is missing (the `exists` check, line 155), the parsed content for a
regular file, and a propagated exception when `fs.readFile` cannot read the
node (e.g. EISDIR for a directory). -/
def readServerPropertiesAt (fs : FS) (serverPath : String) :
    Except String ServerProps :=
  match fs (joinPath serverPath "server.properties") with
  | none => Except.ok {}
  | some (FsNode.textFile content) =>
    Except.ok (readServerPropertiesContent content)
  | some _ => Except.error "server.properties could not be read."

/-- `resolveManagedServer` (lines 577–615): a stored record annotated with
artifact existence, else a synthesised `legacy` record around a bare
`server.jar`, else `none`. -/
def resolveManagedServer (baseDir : String) (fs : FS) (serverName : String) :
    Except String (Option ManagedServer) :=
  match sanitizeServerName serverName with
  | .error e => .error e
  | .ok sanitized =>
  let serverConfigDir := joinPath baseDir sanitized
  match readServerConfig baseDir fs sanitized with
  | .error e => .error e
  | .ok (some config) =>
    Except.ok (some {
      name := sanitized
      serverConfigDir := serverConfigDir
      config := config
      jarExists := pathExists fs (joinPath config.serverPath config.jarFile) })
  | .ok none =>
    if ¬ pathExists fs (joinPath serverConfigDir "server.jar") then
      Except.ok none
    else
      match readServerPropertiesAt fs serverConfigDir with
      | .error e => .error e
      | .ok legacyServerProperties =>
      Except.ok (some {
        name := sanitized
        serverConfigDir := serverConfigDir
        jarExists := true
        config := {
          name := sanitized
          source := "legacy"
          fork := "vanilla"
          version := "unknown"
          build := none
          port := jsOrInt legacyServerProperties.port 25565
          memoryMb := 2048
          motd := jsOrStr legacyServerProperties.motd sanitized
          serverPath := serverConfigDir
          jarFile := "server.jar"
          createdAt := none } })

/-! ## Process supervisor (`minecraftManager.js` lines 387–531) -/

/-- The observable behaviour of a spawned child-process handle, as far as
`stopServer` can see it: the pid, whether `exitCode` is already non-null
when `stopServer` inspects it, and whether the `exit` event fires within the
15-second grace window. -/
structure ProcHandle where
  pid : Option Int
  exitedAtEntry : Bool
  exitsWithin15s : Bool
deriving DecidableEq

/-- A tracking entry of the `running` map (lines 423–427). -/
structure RunEntry where
  process : ProcHandle
  startedAt : String
  logs : List String
deriving DecidableEq

/-- The `running` map: installation name to tracking entry. -/
abbrev RunMap := String → Option RunEntry

def MAX_BUFFERED_LINES : Nat := 500

/-- The chunk-to-lines step of `appendLogs` (lines 514–517): strip `\r`,
split on `\n`, drop empty lines. -/
def chunkLogLines (rawChunk : String) : List String :=
  (jsSplit (jsReplace1 rawChunk '\r' []) '\n').filter (fun line => line.length > 0)

/-- The buffer update of `appendLogs` (lines 519–530): timestamp-prefix each
line, append, then evict the oldest entries beyond `MAX_BUFFERED_LINES`. -/
def bufferAppend (logs : List String) (timestamp rawChunk : String) :
    List String :=
  let lines := chunkLogLines rawChunk
  if lines.isEmpty then logs
  else
    let logs := logs ++ lines.map (fun line => "[" ++ timestamp ++ "] " ++ line)
    if logs.length > MAX_BUFFERED_LINES then
      logs.drop (logs.length - MAX_BUFFERED_LINES)
    else logs

/-- `appendLogs` (lines 508–531) at the level of the running map. -/
def appendLogs (running : RunMap) (serverName : String)
    (timestamp rawChunk : String) : RunMap :=
  match running serverName with
  | none => running
  | some state =>
    fun q =>
      if q = serverName then
        some { state with logs := bufferAppend state.logs timestamp rawChunk }
      else running q

/-- The stamped lines a chunk contributes to the buffer. -/
def stampChunk (timestamp rawChunk : String) : List String :=
  (chunkLogLines rawChunk).map (fun line => "[" ++ timestamp ++ "] " ++ line)

/-- Return value of `startServer` (lines 450–454). -/
structure StartResult where
  name : String
  pid : Option Int
  memoryMb : Int
deriving DecidableEq

/-- `startServer` (lines 387–455): validation and state transition; the
spawn itself is abstracted by `spawnResult`.  Returns the updated running
map together with the outcome; every error path leaves the map untouched. -/
def startServer (baseDir : String) (fs : FS) (running : RunMap) (name : String)
    (memoryOverrideMb : Option Int) (spawnResult : Except String ProcHandle)
    (now : String) : RunMap × Except String StartResult :=
  match sanitizeServerName name with
  | .error e => (running, .error e)
  | .ok serverName =>
  match resolveManagedServer baseDir fs serverName with
  | .error e => (running, .error e)
  | .ok none => (running, .error ("Server \"" ++ serverName ++ "\" is not managed."))
  | .ok (some managed) =>
    let config := managed.config
    let jarPath := joinPath config.serverPath config.jarFile
    if ¬ pathExists fs jarPath then
      (running, .error ("Jar file not found: " ++ jarPath))
    else if (running serverName).isSome then
      (running, .error ("Server \"" ++ serverName ++ "\" is already running."))
    else
      match (match memoryOverrideMb with
             | none => Except.ok (jsOrIntV config.memoryMb 2048)
             | some m => parseIntegerRange m "Memory" 512 65536) with
      | .error e => (running, .error e)
      | .ok memoryMb =>
        match spawnResult with
        | .error e => (running, .error e)
        | .ok child =>
          let state : RunEntry := { process := child, startedAt := now, logs := [] }
          (fun q => if q = serverName then some state else running q,
           Except.ok {
             name := serverName
             pid := match child.pid with
               | some p => if p = 0 then none else some p
               | none => none
             memoryMb := memoryMb })

/-- Observable actions `stopServer` performs on the child process. -/
inductive StopEvent where
  | wroteStop
  | killed
  | awaitedExit
deriving DecidableEq

/-- `stopServer` (lines 457–483).  The returned trace records, in order, the
actions taken on the process: writing the `stop` line, issuing `kill`, and
blocking on the exit event after the kill.  `stopServer` itself never removes
the tracking entry — the exit listener installed by `startServer`
(lines 442–448) does that when the exit event fires. -/
def stopServer (running : RunMap) (name : String) :
    Except String (String × List StopEvent) :=
  match sanitizeServerName name with
  | .error e => .error e
  | .ok serverName =>
  match running serverName with
  | none => .error ("Server \"" ++ serverName ++ "\" is not running.")
  | some state =>
    let child := state.process
    let trace := if child.exitedAtEntry then ([] : List StopEvent)
      else [StopEvent.wroteStop]
    let stopped := !child.exitedAtEntry && child.exitsWithin15s
    if !stopped && (!child.exitedAtEntry && !child.exitsWithin15s) then
      .ok (serverName, trace ++ [StopEvent.killed, StopEvent.awaitedExit])
    else
      .ok (serverName, trace)

/-- `getRecentLogs` (lines 485–506). -/
def getRecentLogs (baseDir : String) (fs : FS) (running : RunMap)
    (name : String) (lineCount : Int) : Except String (List String) :=
  match sanitizeServerName name with
  | .error e => .error e
  | .ok serverName =>
  match parseIntegerRange lineCount "Lines" 1 200 with
  | .error e => .error e
  | .ok lines =>
  match resolveManagedServer baseDir fs serverName with
  | .error e => .error e
  | .ok none => .error ("Server \"" ++ serverName ++ "\" is not managed.")
  | .ok (some managed) =>
    match running serverName with
    | some runningEntry => Except.ok (jsSliceLast runningEntry.logs lines.toNat)
    | none =>
      match fs (joinPath (joinPath managed.config.serverPath "logs") "latest.log") with
      | none => Except.ok []
      | some (FsNode.textFile text) =>
        let allLines := (jsSplit (jsReplace2 text '\r' '\n' ['\n']) '\n').filter
          (fun l => decide (l ≠ ""))
        Except.ok (jsSliceLast allLines lines.toNat)
      | some _ => .error "latest.log could not be read."

/-! ## Create (`minecraftManager.js` lines 199–262) -/

/-- The record `resolveBuildForCreate` produces. -/
structure ResolvedBuild where
  fork : String
  version : String
  build : Option String
  jarUrl : String
deriving DecidableEq

/-- The scalar inputs of `createServer`. -/
structure CreateRequest where
  name : String
  fork : String
  version : String
  port : Int
  memoryMb : Int
  motd : String
deriving DecidableEq

/-- Outcomes of the effectful steps inside `createServer`'s try block:
build resolution, artifact download, and the four file writes.  Each step
either succeeds or raises the given error. -/
structure CreateEnv where
  resolveBuild : Except String ResolvedBuild
  download : Except String Unit
  writeEula : Except String Unit
  writeProps : Except String Unit
  writeConfig : Except String Unit
  writeScript : Except String Unit
  now : String
deriving DecidableEq

/-- `createServer` (lines 199–262): validate, make the registry directory
(already-exists is an error), then run the try block; any failure inside it
removes the directory tree recursively and re-raises the error. -/
def createServer (baseDir javaPath : String) (fs : FS) (req : CreateRequest)
    (env : CreateEnv) : FS × Except String Config :=
  match sanitizeServerName req.name with
  | .error e => (fs, .error e)
  | .ok serverName =>
  match normalizeFork req.fork CREATE_SUPPORTED_FORKS with
  | .error e => (fs, .error e)
  | .ok normalizedFork =>
  match parseIntegerRange req.port "Port" 1024 65535 with
  | .error e => (fs, .error e)
  | .ok validatedPort =>
  match parseIntegerRange req.memoryMb "Memory" 512 65536 with
  | .error e => (fs, .error e)
  | .ok validatedMemory =>
    let serverPath := joinPath baseDir serverName
    if (fs serverPath).isSome then
      (fs, .error ("Server \"" ++ serverName ++ "\" already exists."))
    else
      let fs1 := fsSet fs serverPath .dir
      match env.resolveBuild with
      | .error e => (fsRemoveTree fs1 serverPath, .error e)
      | .ok resolvedBuild =>
      match env.download with
      | .error e => (fsRemoveTree fs1 serverPath, .error e)
      | .ok _ =>
      let fs2 := fsSet fs1 (joinPath serverPath "server.jar")
        (.textFile "downloaded-artifact")
      match env.writeEula with
      | .error e => (fsRemoveTree fs2 serverPath, .error e)
      | .ok _ =>
      let fs3 := fsSet fs2 (joinPath serverPath "eula.txt") (.textFile "eula=true\n")
      match env.writeProps with
      | .error e => (fsRemoveTree fs3 serverPath, .error e)
      | .ok _ =>
      let fs4 := fsSet fs3 (joinPath serverPath "server.properties")
        (.textFile (buildServerProperties validatedPort req.motd ++ "\n"))
      let config : Config := {
        name := serverName
        source := "created"
        serverPath := serverPath
        jarFile := "server.jar"
        fork := normalizedFork
        version := resolvedBuild.version
        build := resolvedBuild.build
        port := validatedPort
        memoryMb := validatedMemory
        motd := if req.motd = "" then serverName else req.motd
        createdAt := some env.now }
      match env.writeConfig with
      | .error e => (fsRemoveTree fs4 serverPath, .error e)
      | .ok _ =>
      match writeServerConfig baseDir fs4 serverName (configToRaw config) with
      | .error e => (fsRemoveTree fs4 serverPath, .error e)
      | .ok fs5 =>
      match env.writeScript with
      | .error e => (fsRemoveTree fs5 serverPath, .error e)
      | .ok _ =>
      (fsSet fs5 (joinPath serverPath "start.ps1")
        (.textFile ("& \"" ++ javaPath ++ "\" -Xms" ++ toString validatedMemory ++
          "M -Xmx" ++ toString validatedMemory ++ "M -jar server.jar nogui\n")),
       Except.ok config)

/-- The first error raised inside `createServer`'s try block, following the
source order: build resolution, download, `eula.txt`, `server.properties`,
`bot-config.json`, `start.ps1`. -/
def createStepsError (env : CreateEnv) : Option String :=
  match env.resolveBuild with
  | .error e => some e
  | .ok _ =>
  match env.download with
  | .error e => some e
  | .ok _ =>
  match env.writeEula with
  | .error e => some e
  | .ok _ =>
  match env.writeProps with
  | .error e => some e
  | .ok _ =>
  match env.writeConfig with
  | .error e => some e
  | .ok _ =>
  match env.writeScript with
  | .error e => some e
  | .ok _ => none

/-! ## Paper build resolution (`minecraftManager.js` lines 660–717) -/

def PAPER_PROJECT_API_URL : String := "https://api.papermc.io/v2/projects/paper"

/-- An entry of the upstream build list: a bare number or an object whose
`build` field may be absent or non-integral (`none`). -/
inductive PaperRawBuild where
  | num (n : Int)
  | obj (build : Option Int) (channel : Option String)
deriving DecidableEq

/-- A normalised build entry. -/
structure PaperBuild where
  build : Int
  channel : Option String
deriving DecidableEq

/-- The normalisation pipeline of `resolvePaperBuild` (lines 682–688):
bare numbers get the `default` channel, entries without an integral `build`
are dropped. -/
def normalizePaperBuilds (rawBuilds : List PaperRawBuild) : List PaperBuild :=
  rawBuilds.filterMap (fun buildEntry =>
    match buildEntry with
    | .num n => some { build := n, channel := some "default" }
    | .obj (some b) c => some { build := b, channel := c }
    | .obj none _ => none)

/-- The selection step (lines 696–698):
`[...candidateBuilds].sort((a, b) => a.build - b.build).at(-1)`, i.e. the
entry with the numerically highest build (later entries win ties, matching
the stable ascending sort). -/
def pickLatestPaperBuild (candidateBuilds : List PaperBuild) :
    Option PaperBuild :=
  candidateBuilds.foldl (fun acc e =>
    match acc with
    | none => some e
    | some a => if a.build ≤ e.build then some e else some a) none

/-- The upstream responses `resolvePaperBuild` consumes after the version is
fixed: the build list, and each build's download filename
(`buildMeta.downloads.application.name`, `none` when absent). -/
structure PaperBuildsEnv where
  builds : List PaperRawBuild
  downloadName : Int → Option String

/-- `resolvePaperBuild` from the builds request onward (lines 672–717);
the version-selection prefix (lines 661–670) has already produced
`targetVersion`. -/
def resolvePaperFromBuilds (targetVersion : String) (env : PaperBuildsEnv) :
    Except String ResolvedBuild :=
  if env.builds.length = 0 then
    .error ("No Paper builds found for version \"" ++ targetVersion ++ "\".")
  else
    let normalizedBuilds := normalizePaperBuilds env.builds
    let defaultChannelBuilds := normalizedBuilds.filter
      (fun buildEntry => buildEntry.channel == some "default")
    let candidateBuilds :=
      if defaultChannelBuilds.length > 0 then defaultChannelBuilds
      else normalizedBuilds
    match pickLatestPaperBuild candidateBuilds with
    | none =>
      .error ("No valid Paper build found for version \"" ++ targetVersion ++ "\".")
    | some latestBuild =>
      match env.downloadName latestBuild.build with
      | none => .error "Paper build metadata is missing application download."
      | some downloadName =>
        Except.ok {
          fork := "paper"
          version := targetVersion
          build := some (toString latestBuild.build)
          jarUrl := PAPER_PROJECT_API_URL ++ "/versions/" ++ targetVersion ++
            "/builds/" ++ toString latestBuild.build ++ "/downloads/" ++
            downloadName }

/-! ## Theorems -/

theorem fN_nil_nil : firstNonzeroDiff [] [] = 0 := rfl

theorem fN_cons_cons (l r : Int) (ls rs : List Int) :
    firstNonzeroDiff (l :: ls) (r :: rs) =
      if l = r then firstNonzeroDiff ls rs else l - r := by
  unfold firstNonzeroDiff
  simp only [List.length_cons, Nat.succ_max_succ, List.range_succ_eq_map,
    List.map_cons, List.map_map, List.getD_cons_zero, List.getD_cons_succ]
  by_cases h : l = r
  · subst h
    simp [Function.comp_def]
  · have hb : ((l - r) != 0) = true := by
      simp only [bne_iff_ne, ne_eq]
      omega
    simp [List.find?_cons, hb, h]

theorem fN_cons_nil (l : Int) (ls : List Int) :
    firstNonzeroDiff (l :: ls) [] =
      if l = 0 then firstNonzeroDiff ls [] else l := by
  unfold firstNonzeroDiff
  simp only [List.length_cons, List.length_nil, Nat.max_zero,
    List.range_succ_eq_map, List.map_cons, List.map_map,
    List.getD_cons_zero, List.getD_cons_succ, List.getD_nil]
  by_cases h : l = 0
  · subst h
    simp [Function.comp_def]
  · have hb : ((l - 0) != 0) = true := by
      simp only [bne_iff_ne, ne_eq]
      omega
    simp [List.find?_cons, hb, h]

theorem fN_nil_cons (r : Int) (rs : List Int) :
    firstNonzeroDiff [] (r :: rs) =
      if r = 0 then firstNonzeroDiff [] rs else -r := by
  unfold firstNonzeroDiff
  simp only [List.length_cons, List.length_nil, Nat.zero_max,
    List.range_succ_eq_map, List.map_cons, List.map_map,
    List.getD_cons_zero, List.getD_cons_succ, List.getD_nil]
  by_cases h : r = 0
  · subst h
    simp [Function.comp_def]
  · have hb : ((0 - r) != 0) = true := by
      simp only [bne_iff_ne, ne_eq]
      omega
    simp [List.find?_cons, hb, h]

theorem cmpSegsNil_eq_fN (rs : List Int) :
    cmpSegsNil rs = firstNonzeroDiff [] rs := by
  induction rs with
  | nil => rfl
  | cons r rs ih =>
    rw [cmpSegsNil, fN_nil_cons]
    by_cases h : r = 0
    · simp [h, ih]
    · simp [h]
      omega

theorem cmpSegsAux_eq_fN (ls rs : List Int) :
    cmpSegsAux ls rs = firstNonzeroDiff ls rs := by
  induction ls generalizing rs with
  | nil => exact cmpSegsNil_eq_fN rs
  | cons l ls ih =>
    cases rs with
    | nil =>
      rw [cmpSegsAux, fN_cons_nil]
      by_cases h : l = 0
      · simp [h, ih []]
      · simp [h]
    | cons r rs =>
      rw [cmpSegsAux, fN_cons_cons]
      by_cases h : l = r
      · simp [h, ih rs]
      · simp [h]

/-- Claim C7: the Version Comparator splits each string on `.`, parses
segments with `parseInt` (fully non-numeric segments are dropped), treats a
missing segment as `0`, and returns the first non-zero pairwise difference
left to right, else zero; `compare("1.20.1","1.20") > 0`,
`compare("1.9","1.10") < 0` (numeric, not lexical), and
`compare("1.20","1.20.0") == 0`. -/
theorem C7_version_comparator :
    (∀ a b, compareMcVersion a b =
      firstNonzeroDiff (parseMcVersion a) (parseMcVersion b))
    ∧ parseMcVersion "1.20.1" = [1, 20, 1]
    ∧ parseMcVersion "1.x" = [1]
    ∧ compareMcVersion "1.20.1" "1.20" > 0
    ∧ compareMcVersion "1.9" "1.10" < 0
    ∧ compareMcVersion "1.20" "1.20.0" = 0 :=
  ⟨fun a b => cmpSegsAux_eq_fN (parseMcVersion a) (parseMcVersion b),
   by decide, by decide, by decide, by decide, by decide⟩

theorem jsSliceLast_append_left (S L : List String) (n : Nat) :
    jsSliceLast (jsSliceLast S n ++ L) n = jsSliceLast (S ++ L) n := by
  unfold jsSliceLast
  rcases le_or_lt S.length n with h | h
  · have h0 : S.length - n = 0 := by omega
    simp [h0]
  · have hlen : (S.drop (S.length - n)).length = n := by
      simp only [List.length_drop]
      omega
    have e1 : (S.drop (S.length - n) ++ L).length - n = L.length := by
      simp only [List.length_append, hlen]
      omega
    have e2 : (S ++ L).length - n = (S.length - n) + L.length := by
      simp only [List.length_append]
      omega
    have e3 : List.drop (S.length - n) (S ++ L) = List.drop (S.length - n) S ++ L :=
      List.drop_append_of_le_length (by omega)
    rw [e1, e2, ← List.drop_drop, e3]

theorem bufferAppend_eq_slice (b : List String) (ts ch : String) :
    bufferAppend b ts ch =
      if (chunkLogLines ch).isEmpty then b
      else jsSliceLast (b ++ stampChunk ts ch) MAX_BUFFERED_LINES := by
  have hdef : bufferAppend b ts ch =
      (if (chunkLogLines ch).isEmpty then b
       else if (b ++ (chunkLogLines ch).map
            (fun line => "[" ++ ts ++ "] " ++ line)).length > MAX_BUFFERED_LINES then
         (b ++ (chunkLogLines ch).map (fun line => "[" ++ ts ++ "] " ++ line)).drop
           ((b ++ (chunkLogLines ch).map
              (fun line => "[" ++ ts ++ "] " ++ line)).length - MAX_BUFFERED_LINES)
       else b ++ (chunkLogLines ch).map (fun line => "[" ++ ts ++ "] " ++ line)) := rfl
  rw [hdef]
  by_cases h1 : (chunkLogLines ch).isEmpty
  · rw [if_pos h1, if_pos h1]
  · rw [if_neg h1, if_neg h1]
    have hXs : b ++ stampChunk ts ch
        = b ++ (chunkLogLines ch).map (fun line => "[" ++ ts ++ "] " ++ line) := rfl
    rw [jsSliceLast, hXs]
    by_cases h2 : (b ++ (chunkLogLines ch).map
        (fun line => "[" ++ ts ++ "] " ++ line)).length > MAX_BUFFERED_LINES
    · rw [if_pos h2]
    · rw [if_neg h2]
      have h0 : (b ++ (chunkLogLines ch).map
          (fun line => "[" ++ ts ++ "] " ++ line)).length - MAX_BUFFERED_LINES = 0 := by
        omega
      rw [h0, List.drop_zero]

theorem foldl_bufferAppend (chunks : List (String × String)) :
    ∀ S, chunks.foldl (fun b p => bufferAppend b p.1 p.2)
        (jsSliceLast S MAX_BUFFERED_LINES) =
      jsSliceLast (S ++ (chunks.map (fun p => stampChunk p.1 p.2)).flatten)
        MAX_BUFFERED_LINES := by
  induction chunks with
  | nil => intro S; simp
  | cons p ps ih =>
    intro S
    rw [List.foldl_cons, bufferAppend_eq_slice]
    by_cases h : (chunkLogLines p.2).isEmpty
    · have hs : stampChunk p.1 p.2 = [] := by
        unfold stampChunk
        rw [List.isEmpty_iff] at h
        simp [h]
      simp only [if_pos h]
      rw [ih S]
      simp [hs]
    · simp only [if_neg h]
      rw [jsSliceLast_append_left, ih (S ++ stampChunk p.1 p.2)]
      simp [List.append_assoc]

/-- Claim C4: the per-installation console log buffer is bounded: after every
append it holds at most `MAX_BUFFERED_LINES` (= 500) lines, and across any
sequence of appended chunks the buffer equals exactly the most recent 500 of
all captured lines, in oldest-first order, each line carrying its capture
timestamp prefix (`stampChunk` prefixes every line with `[timestamp] `). -/
theorem C4_log_buffer_bounded :
    (∀ logs ts chunk, logs.length ≤ MAX_BUFFERED_LINES →
      (bufferAppend logs ts chunk).length ≤ MAX_BUFFERED_LINES)
    ∧ (∀ chunks : List (String × String),
        chunks.foldl (fun b p => bufferAppend b p.1 p.2) [] =
          jsSliceLast ((chunks.map (fun p => stampChunk p.1 p.2)).flatten)
            MAX_BUFFERED_LINES) := by
  constructor
  · intro logs ts chunk h
    rw [bufferAppend_eq_slice]
    by_cases h1 : (chunkLogLines chunk).isEmpty
    · simpa [h1]
    · simp only [if_neg h1, jsSliceLast, List.length_drop]
      omega
  · intro chunks
    have h0 : ([] : List String) = jsSliceLast [] MAX_BUFFERED_LINES := rfl
    rw [h0, foldl_bufferAppend]
    simp

/-- Witness for C4 at a concrete buffer and chunk. -/
theorem C4_witness :
    (bufferAppend ["[t0] a"] "t1" "b\nc").length ≤ MAX_BUFFERED_LINES :=
  C4_log_buffer_bounded.1 ["[t0] a"] "t1" "b\nc" (by decide)

/-- Claim C2: `stopServer` fails with `NotRunningError` when no tracking
entry exists; otherwise, when the process has not already exited, it writes
the `stop` line, races the exit event against the 15-second timer, and — when
the timer wins with the process still alive — kills the process and then
blocks on the exit event (the trace ends with `awaitedExit`), so it never
returns before the exit event fires. -/
theorem C2_stop_two_phase (running : RunMap) (name serverName : String)
    (h : sanitizeServerName name = .ok serverName) :
    (running serverName = none →
      stopServer running name =
        .error ("Server \"" ++ serverName ++ "\" is not running."))
    ∧ (∀ st, running serverName = some st →
        st.process.exitedAtEntry = false →
        stopServer running name =
          .ok (serverName,
            if st.process.exitsWithin15s then [StopEvent.wroteStop]
            else [StopEvent.wroteStop, StopEvent.killed,
              StopEvent.awaitedExit])) := by
  constructor
  · intro hnone
    simp [stopServer, h, hnone]
  · intro st hsome hee
    cases hw : st.process.exitsWithin15s <;>
      simp [stopServer, h, hsome, hee, hw]

/-- Concrete stub entry whose process ignores the stop command. -/
def runStubborn : RunMap := fun n =>
  if n = "alpha" then
    some { process := { pid := some 1, exitedAtEntry := false, exitsWithin15s := false },
           startedAt := "t0", logs := [] }
  else none

/-- Witness for C2: a tracked process that ignores `stop` is killed and then
awaited. -/
theorem C2_witness :
    stopServer runStubborn "alpha" =
      .ok ("alpha", [StopEvent.wroteStop, StopEvent.killed, StopEvent.awaitedExit]) :=
  (C2_stop_two_phase runStubborn "alpha" "alpha" (by decide)).2
    { process := { pid := some 1, exitedAtEntry := false, exitsWithin15s := false },
      startedAt := "t0", logs := [] } rfl rfl

/-- Registry state for C3: `alpha` has a stored config record but its
artifact file `server.jar` has been deleted. -/
def fsAlphaNoJar : FS := fun p =>
  if p = "/srv/alpha" then some .dir
  else if p = "/srv/alpha/bot-config.json" then
    some (.configFile { serverPath := some "/srv/alpha" })
  else none

/-- A spawned-handle stub. -/
def handleStub : ProcHandle :=
  { pid := some 7, exitedAtEntry := false, exitsWithin15s := true }

/-- A running map that already tracks `alpha`. -/
def runAlpha : RunMap := fun n =>
  if n = "alpha" then
    some { process := handleStub, startedAt := "t0", logs := ["[t0] hi"] }
  else none

/-- Counterexample to C3 as stated: `alpha` has a tracking entry, yet
`startServer` fails with the NotFound error (the artifact-existence check
runs before the already-running check), not with `AlreadyRunningError`. -/
theorem C3_counterexample :
    (runAlpha "alpha").isSome = true
    ∧ (startServer "/srv" fsAlphaNoJar runAlpha "alpha" none
        (.ok handleStub) "t1").2 =
      .error "Jar file not found: /srv/alpha/server.jar"
    ∧ (startServer "/srv" fsAlphaNoJar runAlpha "alpha" none
        (.ok handleStub) "t1").2 ≠
      .error "Server \"alpha\" is already running." := by
  refine ⟨rfl, by decide, by decide⟩

theorem startServer_keeps_map_or_ok (baseDir : String) (fs : FS)
    (running : RunMap) (name : String) (memoryOverrideMb : Option Int)
    (spawnResult : Except String ProcHandle) (now : String) :
    (startServer baseDir fs running name memoryOverrideMb spawnResult now).1
        = running
    ∨ ∃ r, (startServer baseDir fs running name memoryOverrideMb
        spawnResult now).2 = Except.ok r := by
  unfold startServer
  repeat' (first | split | dsimp only)
  all_goals first
    | (left; rfl)
    | (right; exact ⟨_, rfl⟩)

/-- Claim C3 (amended): when the name resolves to a managed config whose
artifact file exists, a second `startServer` on a name that already has a
tracking entry fails with `AlreadyRunningError` and the running map — in
particular the first entry — is untouched; when the artifact file does not
exist, `startServer` fails with the NotFound error (this check precedes the
already-running check); every failing `startServer` leaves the running map
unchanged. -/
theorem C3_start_errors (baseDir : String) (fs : FS) (running : RunMap)
    (name serverName : String) (memoryOverrideMb : Option Int)
    (spawnResult : Except String ProcHandle) (now : String)
    (h : sanitizeServerName name = .ok serverName) :
    (∀ m, resolveManagedServer baseDir fs serverName = .ok (some m) →
      pathExists fs (joinPath m.config.serverPath m.config.jarFile) = true →
      (running serverName).isSome = true →
      startServer baseDir fs running name memoryOverrideMb spawnResult now =
        (running, .error ("Server \"" ++ serverName ++ "\" is already running.")))
    ∧ (∀ m, resolveManagedServer baseDir fs serverName = .ok (some m) →
      pathExists fs (joinPath m.config.serverPath m.config.jarFile) = false →
      startServer baseDir fs running name memoryOverrideMb spawnResult now =
        (running, .error ("Jar file not found: " ++
          joinPath m.config.serverPath m.config.jarFile)))
    ∧ (∀ e, (startServer baseDir fs running name memoryOverrideMb
        spawnResult now).2 = .error e →
      (startServer baseDir fs running name memoryOverrideMb spawnResult now).1
        = running) := by
  refine ⟨?_, ?_, ?_⟩
  · intro m hm hjar hrun
    simp [startServer, h, hm, hjar, hrun]
  · intro m hm hjar
    simp [startServer, h, hm, hjar]
  · intro e he
    rcases startServer_keeps_map_or_ok baseDir fs running name memoryOverrideMb
        spawnResult now with hk | ⟨r, hr⟩
    · exact hk
    · rw [he] at hr
      exact absurd hr (by simp)

/-- Registry state like `fsAlphaNoJar` but with the artifact intact. -/
def fsAlphaFull : FS := fun p =>
  if p = "/srv/alpha" then some .dir
  else if p = "/srv/alpha/bot-config.json" then
    some (.configFile { serverPath := some "/srv/alpha" })
  else if p = "/srv/alpha/server.jar" then some (.textFile "jar")
  else none

/-- The managed record `resolveManagedServer` produces for `fsAlphaFull`. -/
def managedAlpha : ManagedServer where
  name := "alpha"
  serverConfigDir := "/srv/alpha"
  config := {
    name := "alpha"
    source := "created"
    serverPath := "/srv/alpha"
    jarFile := "server.jar"
    fork := "vanilla"
    version := "unknown"
    build := none
    port := 25565
    memoryMb := 2048
    motd := "alpha"
    createdAt := none }
  jarExists := true

/-- Witness for C3 (amended): a second start on an intact, already-running
installation fails `AlreadyRunningError` and the map is untouched. -/
theorem C3_witness :
    startServer "/srv" fsAlphaFull runAlpha "alpha" none (.ok handleStub) "t1" =
      (runAlpha, .error "Server \"alpha\" is already running.") :=
  (C3_start_errors "/srv" fsAlphaFull runAlpha "alpha" "alpha" none
      (.ok handleStub) "t1" (by decide)).1
    managedAlpha (by decide) (by decide) rfl

/-- The empty registry: every config record has been deleted. -/
def fsEmpty : FS := fun _ => none

/-- Counterexample to C9 as stated: `alpha` still has a tracking entry but no
config record resolves, and reading its recent logs fails with the
NotManagedError instead of returning the live buffer. -/
theorem C9_counterexample :
    (runAlpha "alpha").isSome = true
    ∧ resolveManagedServer "/srv" fsEmpty "alpha" = .ok none
    ∧ getRecentLogs "/srv" fsEmpty runAlpha "alpha" 20 =
        .error "Server \"alpha\" is not managed." :=
  ⟨rfl, by decide, by decide⟩

/-- Claim C9 (amended): for a name with an orphaned tracking entry (no
record resolves through the Config Store), `stopServer` still finds and
controls the process through the tracking map, while `getRecentLogs`
consults the Config Store first and fails with the NotManagedError. -/
theorem C9_orphan_tracking (baseDir : String) (fs : FS) (running : RunMap)
    (name serverName : String) (h : sanitizeServerName name = .ok serverName)
    (st : RunEntry) (hrun : running serverName = some st) :
    (∃ tr, stopServer running name = .ok (serverName, tr))
    ∧ (resolveManagedServer baseDir fs serverName = .ok none →
       ∀ c : Int, 1 ≤ c → c ≤ 200 →
         getRecentLogs baseDir fs running name c =
           .error ("Server \"" ++ serverName ++ "\" is not managed.")) := by
  constructor
  · cases hee : st.process.exitedAtEntry <;> cases hw : st.process.exitsWithin15s
    · exact ⟨[StopEvent.wroteStop, StopEvent.killed, StopEvent.awaitedExit],
        by simp [stopServer, h, hrun, hee, hw]⟩
    · exact ⟨[StopEvent.wroteStop], by simp [stopServer, h, hrun, hee, hw]⟩
    · exact ⟨[], by simp [stopServer, h, hrun, hee, hw]⟩
    · exact ⟨[], by simp [stopServer, h, hrun, hee, hw]⟩
  · intro hres c h1 h2
    have hpr : parseIntegerRange c "Lines" 1 200 = .ok c := by
      unfold parseIntegerRange
      rw [if_neg (by omega : ¬(c < 1 ∨ c > 200))]
    simp [getRecentLogs, h, hpr, hres]

/-- Witness for C9 (amended) on the concrete orphaned state. -/
theorem C9_witness :
    (stopServer runAlpha "alpha").isOk = true
    ∧ getRecentLogs "/srv" fsEmpty runAlpha "alpha" 20 =
        .error "Server \"alpha\" is not managed." := by
  obtain ⟨tr, htr⟩ :=
    (C9_orphan_tracking "/srv" fsEmpty runAlpha "alpha" "alpha" (by decide)
      { process := handleStub, startedAt := "t0", logs := ["[t0] hi"] } rfl).1
  exact ⟨by rw [htr]; rfl,
    (C9_orphan_tracking "/srv" fsEmpty runAlpha "alpha" "alpha" (by decide)
      { process := handleStub, startedAt := "t0", logs := ["[t0] hi"] } rfl).2
     (by decide) 20 (by decide) (by decide)⟩

theorem length_jsSliceLast_le (l : List String) (n : Nat) :
    (jsSliceLast l n).length ≤ n := by
  simp only [jsSliceLast, List.length_drop]
  omega

/-- Claim C10: `getRecentLogs` validates the requested line count against the
undocumented bound [1, 200] before consulting the config store, the live
buffer or the log file — out-of-range requests fail with the validation
error for every filesystem and running map — and an accepted request returns
at most that many lines. -/
theorem C10_recent_logs_bounds (baseDir : String) (name serverName : String)
    (h : sanitizeServerName name = .ok serverName) :
    (∀ (fs : FS) (running : RunMap) (c : Int), (c < 1 ∨ c > 200) →
      getRecentLogs baseDir fs running name c =
        .error "Lines must be an integer between 1 and 200.")
    ∧ (∀ (fs : FS) (running : RunMap) (c : Int) (ls : List String),
        getRecentLogs baseDir fs running name c = .ok ls →
        (ls.length : Int) ≤ c) := by
  constructor
  · intro fs running c hc
    have hpr : parseIntegerRange c "Lines" 1 200 =
        .error "Lines must be an integer between 1 and 200." := by
      unfold parseIntegerRange
      rw [if_pos hc]
      rfl
    simp [getRecentLogs, h, hpr]
  · intro fs running c ls hok
    by_cases hc : c < 1 ∨ c > 200
    · have hpr : parseIntegerRange c "Lines" 1 200 =
          .error "Lines must be an integer between 1 and 200." := by
        unfold parseIntegerRange
        rw [if_pos hc]
        rfl
      have hmsg : getRecentLogs baseDir fs running name c =
          .error "Lines must be an integer between 1 and 200." := by
        simp [getRecentLogs, h, hpr]
      rw [hmsg] at hok
      exact absurd hok (by simp)
    · have hpr : parseIntegerRange c "Lines" 1 200 = .ok c := by
        unfold parseIntegerRange
        rw [if_neg hc]
      unfold getRecentLogs at hok
      rw [h, hpr] at hok
      dsimp only at hok
      rcases hres : resolveManagedServer baseDir fs serverName with e | o
      · rw [hres] at hok
        exact absurd hok (by simp)
      · rw [hres] at hok
        cases o with
        | none => exact absurd hok (by simp)
        | some m =>
          dsimp only at hok
          rcases hrun : running serverName with _ | entry
          · rw [hrun] at hok
            dsimp only at hok
            rcases hfile : fs (joinPath (joinPath m.config.serverPath "logs")
                "latest.log") with _ | node
            · rw [hfile] at hok
              simp only [Except.ok.injEq] at hok
              subst hok
              simp only [List.length_nil]
              omega
            · rw [hfile] at hok
              cases node with
              | dir => exact absurd hok (by simp)
              | configFile cfg => exact absurd hok (by simp)
              | textFile text =>
                simp only [Except.ok.injEq] at hok
                subst hok
                have hb := length_jsSliceLast_le
                  ((jsSplit (jsReplace2 text '\r' '\n' ['\n']) '\n').filter
                    (fun l => decide (l ≠ ""))) c.toNat
                omega
          · rw [hrun] at hok
            dsimp only at hok
            simp only [Except.ok.injEq] at hok
            subst hok
            have hb := length_jsSliceLast_le entry.logs c.toNat
            omega

/-- Witness for C10: an out-of-range request fails on the concrete state of
`fsAlphaFull`, even though the name is managed. -/
theorem C10_witness :
    getRecentLogs "/srv" fsAlphaFull runAlpha "alpha" 500 =
      .error "Lines must be an integer between 1 and 200." :=
  (C10_recent_logs_bounds "/srv" "alpha" "alpha" (by decide)).1
    fsAlphaFull runAlpha 500 (by decide)

theorem isNameChar_not_space (c : Char) (h : isNameChar c = true) :
    isJsSpace c = false := by
  by_contra hs
  have hs' : isJsSpace c = true := by
    cases hh : isJsSpace c
    · exact absurd hh hs
    · rfl
  have : c = ' ' ∨ c = '\t' ∨ c = '\n' ∨ c = '\r' ∨ c = '\x0b' ∨ c = '\x0c' := by
    have := hs'
    simp [isJsSpace] at this
    tauto
  rcases this with h' | h' | h' | h' | h' | h' <;> subst h' <;>
    exact absurd h (by decide)

theorem dropWhile_eq_self_of_all (p : Char → Bool) (l : List Char)
    (hl : ∀ c ∈ l, p c = false) : l.dropWhile p = l := by
  cases l with
  | nil => rfl
  | cons c t =>
    rw [List.dropWhile_cons, hl c (by simp)]
    simp

theorem jsTrim_eq_self (s : String) (hs : ∀ c ∈ s.toList, isJsSpace c = false) :
    jsTrim s = s := by
  unfold jsTrim
  rw [dropWhile_eq_self_of_all _ _ hs,
    dropWhile_eq_self_of_all _ _ (fun c hc => hs c (List.mem_reverse.mp hc)),
    List.reverse_reverse, String.asString_toList]

theorem sanitizeServerName_idem (name n : String)
    (h : sanitizeServerName name = .ok n) :
    sanitizeServerName n = .ok n := by
  unfold sanitizeServerName at h ⊢
  by_cases hc : 3 ≤ (jsTrim name).length ∧ (jsTrim name).length ≤ 32 ∧
      (jsTrim name).toList.all isNameChar
  · rw [if_pos hc] at h
    injection h with h'
    subst h'
    have hall : ∀ c ∈ (jsTrim name).toList, isNameChar c = true := by
      have := hc.2.2
      simpa [List.all_eq_true] using this
    have htrim : jsTrim (jsTrim name) = jsTrim name :=
      jsTrim_eq_self _ (fun c hcm => isNameChar_not_space c (hall c hcm))
    rw [htrim, if_pos hc]
  · rw [if_neg hc] at h
    exact absurd h (by simp)

/-- Claim C6: for a registry directory with a bare `server.jar` and no config
record, whenever the properties file is readable (a regular file or absent)
`resolveManagedServer` synthesises a `legacy` record with `jarExists` (the
spec's artifactExists) true, port from the properties file (25565 when
absent), motd from the properties file with the `:`/`=`/newline escape
sequences reversed (the newline escape to the space the generator writes for
newlines), falling back to the sanitized directory name when absent, and a
null `createdAt`; a failing properties read propagates its error out of
`resolveManagedServer`; with neither record nor jar it resolves to `none`. -/
theorem C6_legacy_synthesis (baseDir : String) (fs : FS)
    (name serverName : String)
    (h : sanitizeServerName name = .ok serverName)
    (hnoConfig :
      fs (joinPath (joinPath baseDir serverName) "bot-config.json") = none) :
    (∀ node props,
      fs (joinPath (joinPath baseDir serverName) "server.jar") = some node →
      readServerPropertiesAt fs (joinPath baseDir serverName) = .ok props →
      ∃ m, resolveManagedServer baseDir fs name = .ok (some m)
        ∧ m.config.source = "legacy"
        ∧ m.jarExists = true
        ∧ m.config.createdAt = none
        ∧ m.config.serverPath = joinPath baseDir serverName
        ∧ m.config.jarFile = "server.jar"
        ∧ (props.port = none → m.config.port = 25565)
        ∧ (∀ p : Int, props.port = some p → p ≠ 0 → m.config.port = p)
        ∧ (props.motd = none → m.config.motd = serverName)
        ∧ (∀ s, props.motd = some s → s ≠ "" → m.config.motd = s))
    ∧ (∀ node e,
        fs (joinPath (joinPath baseDir serverName) "server.jar") = some node →
        readServerPropertiesAt fs (joinPath baseDir serverName) = .error e →
        resolveManagedServer baseDir fs name = .error e)
    ∧ (fs (joinPath (joinPath baseDir serverName) "server.jar") = none →
        resolveManagedServer baseDir fs name = .ok none)
    ∧ readServerPropertiesContent "server-port=25566\nmotd=a\\:b\\=c" =
        { port := some 25566, motd := some "a:b=c" }
    ∧ (readServerPropertiesContent "motd=x\\ny").motd = some "x y" := by
  have hidem := sanitizeServerName_idem name serverName h
  have hrc : readServerConfig baseDir fs serverName = .ok none := by
    unfold readServerConfig
    rw [hidem]
    dsimp only
    rw [hnoConfig]
  refine ⟨?_, ?_, ?_, by decide, by decide⟩
  · intro node props hjar hprops
    refine ⟨{ name := serverName
              serverConfigDir := joinPath baseDir serverName
              jarExists := true
              config := {
                name := serverName
                source := "legacy"
                fork := "vanilla"
                version := "unknown"
                build := none
                port := jsOrInt props.port 25565
                memoryMb := 2048
                motd := jsOrStr props.motd serverName
                serverPath := joinPath baseDir serverName
                jarFile := "server.jar"
                createdAt := none } },
        ?_, rfl, rfl, rfl, rfl, rfl, ?_, ?_, ?_, ?_⟩
    · unfold resolveManagedServer
      rw [h]
      dsimp only
      rw [hrc]
      dsimp only
      rw [hprops]
      dsimp only
      simp [pathExists, hjar]
    · intro hp
      simp [hp, jsOrInt]
    · intro p hp hp0
      simp [hp, jsOrInt, hp0]
    · intro hm
      simp [hm, jsOrStr]
    · intro s hm hs0
      simp [hm, jsOrStr, hs0]
  · intro node e hjar herr
    unfold resolveManagedServer
    rw [h]
    dsimp only
    rw [hrc]
    dsimp only
    rw [herr]
    dsimp only
    simp [pathExists, hjar]
  · intro hnojar
    unfold resolveManagedServer
    rw [h]
    dsimp only
    rw [hrc]
    dsimp only
    simp [pathExists, hnojar]

/-- A legacy registry directory: bare `server.jar`, a properties file, and no
config record. -/
def fsLegacy : FS := fun p =>
  if p = "/srv/oldsrv" then some .dir
  else if p = "/srv/oldsrv/server.jar" then some (.textFile "jar")
  else if p = "/srv/oldsrv/server.properties" then
    some (.textFile "server-port=25566\nmotd=a\\:b\\=c")
  else none

/-- Witness for C6 on a concrete legacy directory. -/
theorem C6_witness :
    (resolveManagedServer "/srv" fsLegacy "oldsrv").map
      (Option.map (fun m =>
        (m.config.source, m.jarExists, m.config.port, m.config.motd,
          m.config.createdAt))) =
    .ok (some ("legacy", true, (25566 : Int), "a:b=c",
      (none : Option String))) := by
  obtain ⟨m, h1, h2, h3, h4, h5, h6, h7, h8, h9, h10⟩ :=
    (C6_legacy_synthesis "/srv" fsLegacy "oldsrv" "oldsrv" (by decide)
        (by decide)).1 (FsNode.textFile "jar")
      { port := some 25566, motd := some "a:b=c" } (by decide) (by decide)
  rw [h1]
  simp [Except.map, h2, h3, h4, h8 25566 (by decide) (by decide),
    h10 "a:b=c" (by decide) (by decide)]

theorem fsSet_self (f : FS) (p : String) (v : FsNode) : fsSet f p v p = some v := by
  simp [fsSet]

/-- A registry holding only a record with every optional field absent. -/
def fsRecordOnly : FS := fun p =>
  if p = "/srv/alpha" then some .dir
  else if p = "/srv/alpha/bot-config.json" then some (.configFile {})
  else none

/-- Counterexample to C5 as stated: storing a record with `source` absent and
reading it back yields `source = "created"` (derived from the path
comparison), not the claimed first default `"vanilla"` — the claim's list of
eight fields against seven defaults misaligns at `source`. -/
theorem C5_counterexample :
    (readServerConfig "/srv" fsRecordOnly "alpha").map (Option.map Config.source) =
      .ok (some "created")
    ∧ ("created" : String) ≠ "vanilla" := by
  refine ⟨by decide, by decide⟩

/-- Claim C5 (amended): for every name accepted by the pattern, writing a
config record and reading it back yields a record named by the sanitized
name; absent `fork`/`version`/`build`/`memoryMb`/`port`/`motd`/`jarFile` are
backfilled with `vanilla`/`"unknown"`/null/`2048`/`25565`/the sanitized
name/`"server.jar"` respectively, and an absent `source` is backfilled with
`"created"` when the resolved `serverPath` is the registry directory itself
and `"imported"` otherwise. -/
theorem C5_config_roundtrip (baseDir : String) (fs : FS)
    (name serverName : String) (raw : RawConfig)
    (h : sanitizeServerName name = .ok serverName) :
    ∃ fs', writeServerConfig baseDir fs name raw = .ok fs'
      ∧ ∃ cfg, readServerConfig baseDir fs' name = .ok (some cfg)
        ∧ cfg.name = serverName
        ∧ (raw.fork = none → cfg.fork = "vanilla")
        ∧ (raw.version = none → cfg.version = "unknown")
        ∧ (raw.build = none → cfg.build = none)
        ∧ (raw.memoryMb = none → cfg.memoryMb = 2048)
        ∧ (raw.port = none → cfg.port = 25565)
        ∧ (raw.motd = none → cfg.motd = serverName)
        ∧ (raw.jarFile = none → cfg.jarFile = "server.jar")
        ∧ (raw.source = none → cfg.source =
            (if jsResolve1 cfg.serverPath = jsResolve1 (joinPath baseDir serverName)
             then "created" else "imported")) := by
  unfold writeServerConfig
  rw [h]
  dsimp only
  refine ⟨_, rfl, ?_⟩
  unfold readServerConfig
  rw [h]
  dsimp only
  rw [fsSet_self]
  dsimp only
  refine ⟨_, rfl, rfl, ?_, ?_, ?_, ?_, ?_, ?_, ?_, ?_⟩
  · intro h0
    simp [h0, jsOrStr]
  · intro h0
    simp [h0, jsOrStr]
  · intro h0
    exact h0
  · intro h0
    simp [h0, jsOrInt]
  · intro h0
    simp [h0, jsOrInt]
  · intro h0
    simp [h0, jsOrStr]
  · intro h0
    simp [h0, jsOrStr]
  · intro h0
    simp [h0, jsOrStr]

/-- Witness for C5 (amended) at a concrete name and empty record. -/
theorem C5_witness :
    ((writeServerConfig "/srv" fsEmpty "beta" ({} : RawConfig)).bind
        (fun fs' => readServerConfig "/srv" fs' "beta")).map
      (Option.map (fun cfg => (cfg.name, cfg.fork, cfg.port))) =
    .ok (some ("beta", "vanilla", (25565 : Int))) := by
  obtain ⟨fs', hw, cfg, hr, hname, hfork, hver, hbuild, hmem, hport, hmotd,
      hjar, hsrc⟩ :=
    C5_config_roundtrip "/srv" fsEmpty "beta" "beta" {} (by decide)
  rw [hw]
  simp only [Except.bind]
  rw [hr]
  simp [Except.map, hname, hfork rfl, hport rfl]

/-- Claim C1: `createServer` is atomic.  Once validation has passed and the
registry directory has been created, a failure of any later step — build
resolution, artifact download, or any of the file writes — surfaces that
step's own error and leaves no path at or below the registry directory for
the name. -/
theorem C1_create_atomic (baseDir javaPath : String) (fs : FS)
    (req : CreateRequest) (env : CreateEnv)
    (serverName normalizedFork : String) (validatedPort validatedMemory : Int)
    (e : String)
    (h1 : sanitizeServerName req.name = .ok serverName)
    (h2 : normalizeFork req.fork CREATE_SUPPORTED_FORKS = .ok normalizedFork)
    (h3 : parseIntegerRange req.port "Port" 1024 65535 = .ok validatedPort)
    (h4 : parseIntegerRange req.memoryMb "Memory" 512 65536 = .ok validatedMemory)
    (h5 : fs (joinPath baseDir serverName) = none)
    (he : createStepsError env = some e) :
    (createServer baseDir javaPath fs req env).2 = .error e
    ∧ ∀ q, isUnder (joinPath baseDir serverName) q = true →
        (createServer baseDir javaPath fs req env).1 q = none := by
  obtain ⟨rb, dl, we, wp, wc, ws, nw⟩ := env
  unfold createServer
  rw [h1]
  dsimp only
  rw [h2]
  dsimp only
  rw [h3]
  dsimp only
  rw [h4]
  dsimp only
  rw [h5]
  simp only [Option.isSome_none, Bool.false_eq_true, if_false]
  cases rb with
  | error e' =>
    simp only [createStepsError, Option.some.injEq] at he
    subst he
    exact ⟨rfl, fun q hq => by simp [fsRemoveTree, hq]⟩
  | ok rbv =>
  dsimp only
  cases dl with
  | error e' =>
    simp only [createStepsError, Option.some.injEq] at he
    subst he
    exact ⟨rfl, fun q hq => by simp [fsRemoveTree, hq]⟩
  | ok dlv =>
  dsimp only
  cases we with
  | error e' =>
    simp only [createStepsError, Option.some.injEq] at he
    subst he
    exact ⟨rfl, fun q hq => by simp [fsRemoveTree, hq]⟩
  | ok wev =>
  dsimp only
  cases wp with
  | error e' =>
    simp only [createStepsError, Option.some.injEq] at he
    subst he
    exact ⟨rfl, fun q hq => by simp [fsRemoveTree, hq]⟩
  | ok wpv =>
  dsimp only
  cases wc with
  | error e' =>
    simp only [createStepsError, Option.some.injEq] at he
    subst he
    exact ⟨rfl, fun q hq => by simp [fsRemoveTree, hq]⟩
  | ok wcv =>
  dsimp only
  unfold writeServerConfig
  rw [sanitizeServerName_idem req.name serverName h1]
  dsimp only
  cases ws with
  | error e' =>
    simp only [createStepsError, Option.some.injEq] at he
    subst he
    exact ⟨rfl, fun q hq => by simp [fsRemoveTree, hq]⟩
  | ok wsv =>
    simp [createStepsError] at he

/-- Inputs for a concrete create request. -/
def reqGamma : CreateRequest where
  name := "gamma"
  fork := "vanilla"
  version := "latest"
  port := 25565
  memoryMb := 2048
  motd := "Test"

/-- An environment whose artifact download fails after build resolution. -/
def envDownloadFail : CreateEnv where
  resolveBuild := .ok { fork := "vanilla", version := "1.21.1", build := none,
                        jarUrl := "u" }
  download := .error "Failed to download u (503)"
  writeEula := .ok ()
  writeProps := .ok ()
  writeConfig := .ok ()
  writeScript := .ok ()
  now := "t0"

/-- Witness for C1: a failed download surfaces its own error and leaves no
trace of the directory (checked at the directory path and a file inside). -/
theorem C1_witness :
    (createServer "/srv" "java" fsEmpty reqGamma envDownloadFail).2 =
      .error "Failed to download u (503)"
    ∧ (createServer "/srv" "java" fsEmpty reqGamma envDownloadFail).1
        "/srv/gamma" = none
    ∧ (createServer "/srv" "java" fsEmpty reqGamma envDownloadFail).1
        "/srv/gamma/server.jar" = none :=
  ⟨(C1_create_atomic "/srv" "java" fsEmpty reqGamma envDownloadFail
      "gamma" "vanilla" 25565 2048 "Failed to download u (503)"
      (by decide) (by decide) (by decide) (by decide) rfl (by decide)).1,
   (C1_create_atomic "/srv" "java" fsEmpty reqGamma envDownloadFail
      "gamma" "vanilla" 25565 2048 "Failed to download u (503)"
      (by decide) (by decide) (by decide) (by decide) rfl (by decide)).2
     "/srv/gamma" (by decide),
   (C1_create_atomic "/srv" "java" fsEmpty reqGamma envDownloadFail
      "gamma" "vanilla" 25565 2048 "Failed to download u (503)"
      (by decide) (by decide) (by decide) (by decide) rfl (by decide)).2
     "/srv/gamma/server.jar" (by decide)⟩

theorem pickLatest_go (l : List PaperBuild) :
    ∀ a, ∃ e, l.foldl (fun acc x => match acc with
        | none => some x
        | some b => if b.build ≤ x.build then some x else some b) (some a) = some e
      ∧ (e = a ∨ e ∈ l) ∧ a.build ≤ e.build ∧ ∀ f ∈ l, f.build ≤ e.build := by
  induction l with
  | nil =>
    intro a
    exact ⟨a, rfl, Or.inl rfl, le_refl _, by simp⟩
  | cons x t ih =>
    intro a
    rw [List.foldl_cons]
    dsimp only
    by_cases hx : a.build ≤ x.build
    · rw [if_pos hx]
      obtain ⟨e, he, hm, hab, hall⟩ := ih x
      refine ⟨e, he, ?_, le_trans hx hab, ?_⟩
      · rcases hm with h' | h'
        · exact Or.inr (by simp [h'])
        · exact Or.inr (by simp [h'])
      · intro f hf
        rcases List.mem_cons.mp hf with h' | h'
        · subst h'
          exact hab
        · exact hall f h'
    · rw [if_neg hx]
      obtain ⟨e, he, hm, hab, hall⟩ := ih a
      refine ⟨e, he, ?_, hab, ?_⟩
      · rcases hm with h' | h'
        · exact Or.inl h'
        · exact Or.inr (by simp [h'])
      · intro f hf
        rcases List.mem_cons.mp hf with h' | h'
        · subst h'
          omega
        · exact hall f h'

theorem pickLatestPaperBuild_eq_some (l : List PaperBuild) (e : PaperBuild)
    (h : pickLatestPaperBuild l = some e) :
    e ∈ l ∧ ∀ f ∈ l, f.build ≤ e.build := by
  cases l with
  | nil => exact absurd h (by simp [pickLatestPaperBuild])
  | cons x t =>
    unfold pickLatestPaperBuild at h
    rw [List.foldl_cons] at h
    dsimp only at h
    obtain ⟨e', he', hm, hab, hall⟩ := pickLatest_go t x
    rw [he'] at h
    injection h with h'
    subst h'
    refine ⟨?_, ?_⟩
    · rcases hm with h' | h' <;> simp [h']
    · intro f hf
      rcases List.mem_cons.mp hf with h' | h'
      · subst h'
        exact hab
      · exact hall f h'

/-- Claim C8: Paper build selection normalizes bare-integer entries to
`{build, channel := "default"}`; the chosen build is the numerically highest
among the default-channel entries when any exist, else among all normalized
entries; resolution fails when the build list is empty and when the chosen
build's metadata lacks a download filename. -/
theorem C8_paper_build_selection :
    (∀ n rest, normalizePaperBuilds (.num n :: rest) =
      { build := n, channel := some "default" } :: normalizePaperBuilds rest)
    ∧ (∀ v env, env.builds = [] →
        resolvePaperFromBuilds v env =
          .error ("No Paper builds found for version \"" ++ v ++ "\"."))
    ∧ (∀ v env r, resolvePaperFromBuilds v env = .ok r →
        ∃ e, r.build = some (toString e.build)
          ∧ ((normalizePaperBuilds env.builds).filter
                (fun b => b.channel == some "default") ≠ [] →
              e ∈ (normalizePaperBuilds env.builds).filter
                (fun b => b.channel == some "default")
              ∧ e.channel = some "default"
              ∧ ∀ f ∈ (normalizePaperBuilds env.builds).filter
                  (fun b => b.channel == some "default"), f.build ≤ e.build)
          ∧ ((normalizePaperBuilds env.builds).filter
                (fun b => b.channel == some "default") = [] →
              e ∈ normalizePaperBuilds env.builds
              ∧ ∀ f ∈ normalizePaperBuilds env.builds, f.build ≤ e.build))
    ∧ (∀ v env latest,
        env.builds ≠ [] →
        pickLatestPaperBuild
          (if ((normalizePaperBuilds env.builds).filter
              (fun b => b.channel == some "default")).length > 0 then
            (normalizePaperBuilds env.builds).filter
              (fun b => b.channel == some "default")
          else normalizePaperBuilds env.builds) = some latest →
        env.downloadName latest.build = none →
        resolvePaperFromBuilds v env =
          .error "Paper build metadata is missing application download.") := by
  refine ⟨?_, ?_, ?_, ?_⟩
  · intro n rest
    simp [normalizePaperBuilds, List.filterMap_cons]
  · intro v env henv
    simp [resolvePaperFromBuilds, henv]
  · intro v env r hr
    unfold resolvePaperFromBuilds at hr
    by_cases hlen : env.builds.length = 0
    · rw [if_pos hlen] at hr
      exact absurd hr (by simp)
    · rw [if_neg hlen] at hr
      dsimp only at hr
      rcases hpick : pickLatestPaperBuild
          (if ((normalizePaperBuilds env.builds).filter
              (fun b => b.channel == some "default")).length > 0 then
            (normalizePaperBuilds env.builds).filter
              (fun b => b.channel == some "default")
          else normalizePaperBuilds env.builds) with _ | latest
      · rw [hpick] at hr
        exact absurd hr (by simp)
      · rw [hpick] at hr
        dsimp only at hr
        rcases hdn : env.downloadName latest.build with _ | dn
        · rw [hdn] at hr
          exact absurd hr (by simp)
        · rw [hdn] at hr
          dsimp only at hr
          simp only [Except.ok.injEq] at hr
          subst hr
          refine ⟨latest, rfl, ?_, ?_⟩
          · intro hD
            have hlen' : ((normalizePaperBuilds env.builds).filter
                (fun b => b.channel == some "default")).length > 0 := by
              cases hDl : (normalizePaperBuilds env.builds).filter
                  (fun b => b.channel == some "default") with
              | nil => exact absurd hDl hD
              | cons y ys => simp [hDl]
            rw [if_pos hlen'] at hpick
            obtain ⟨hmem, hmax⟩ := pickLatestPaperBuild_eq_some _ _ hpick
            refine ⟨hmem, ?_, hmax⟩
            have := List.mem_filter.mp hmem
            simpa using this.2
          · intro hD
            have hlen' : ¬ ((normalizePaperBuilds env.builds).filter
                (fun b => b.channel == some "default")).length > 0 := by
              simp [hD]
            rw [if_neg hlen'] at hpick
            exact pickLatestPaperBuild_eq_some _ _ hpick
  · intro v env latest henv hpick hdn
    unfold resolvePaperFromBuilds
    rw [if_neg (by simpa using henv)]
    dsimp only
    rw [hpick]
    dsimp only
    rw [hdn]

/-- Witness for C8: resolution fails on the empty build list. -/
theorem C8_witness :
    resolvePaperFromBuilds "1.21.1"
      { builds := [], downloadName := fun _ => none } =
    .error ("No Paper builds found for version \"" ++ "1.21.1" ++ "\".") :=
  C8_paper_build_selection.2.1 "1.21.1"
    { builds := [], downloadName := fun _ => none } rfl
